import Mathlib

/-
Verification of the redis cache-synchronization client (src/redis/redis.go).

Shallow embedding conventions:
- Byte strings and keys are lists of characters; binary identifiers are lists
  of naturals.
- time.Duration (int64 nanoseconds in Go) is modelled as Int, in nanoseconds.
  The float conversion ttl.Seconds() followed by the uint32 cast is modelled,
  for the nonnegative durations at which the code applies it, as integer
  division by 10^9 followed by reduction mod 2^32.
- The miekg/dns wire codec is external to the repository and treated as an
  opaque, faithful binary codec: Bytes is either a packed well-formed message
  or corrupt garbage.  Packing does not record the Compress flag (compression
  changes the bytes, not the decoded content); unpacking yields a message
  whose Compress flag is the zero value false, as dns.Msg.Unpack does.
- encoding/json marshalling of the three-field redisMessage struct is a
  faithful self-describing envelope: modelled as a tagged payload that
  unmarshals back to the struct, with garbage and empty payloads as the
  failure cases.
- The redis store is a list of entries each carrying its remaining TTL in
  seconds.  Redis expiry semantics: a key whose remaining TTL is not positive
  behaves as absent on GET (lazy deletion).
-/

namespace BlockyRedis

/-- Keys, channel names and reason tags: Go strings as lists of characters. -/
abbrev Str := List Char

/-- A DNS resource record: the header fields the client reads or writes
(Header().Ttl) plus opaque name and rdata. -/
structure RR where
  name : Str
  ttl : Nat
  rdata : Str
deriving DecidableEq

/-- The parts of a miekg/dns Msg the client touches: the Compress flag it
sets before packing, and the record sections. -/
structure DnsMsg where
  id : Nat
  compress : Bool
  question : List Str
  answer : List RR
  ns : List RR
  extra : List RR
deriving DecidableEq

/-- Opaque wire bytes produced by the DNS codec: either the packed form of a
well-formed message or corrupt bytes that fail to unpack. -/
inductive Bytes where
  | packed (m : DnsMsg)
  | corrupt (n : Nat)
deriving DecidableEq

/-- The canonical decoded form of a message: the DNS wire format does not
carry the Compress flag, so unpacking leaves it at the zero value false. -/
def canonMsg (m : DnsMsg) : DnsMsg := { m with compress := false }

/-- dns.Msg.Pack: serialize a message to wire bytes. -/
def Pack (m : DnsMsg) : Bytes := .packed (canonMsg m)

/-- dns.Msg.Unpack: parse wire bytes back into a message; corrupt bytes fail. -/
def Unpack : Bytes → Option DnsMsg
  | .packed m => some m
  | .corrupt _ => none

/-- Constant CacheChannelName (redis.go line 21). -/
def CacheChannelName : Str := "blocky_sync".toList

/-- Constant CacheStorePrefix (redis.go line 22). -/
def CacheStorePrefix : Str := "blocky:cache:".toList

/-- Constant cacheReason (redis.go line 24). -/
def cacheReason : Str := "EXTERNAL_CACHE".toList

/-- Constant defaultCacheTime = 1 * time.Second, in nanoseconds (line 25). -/
def defaultCacheTime : Int := 1000000000

/-- prefixKey (redis.go lines 257-259): fmt.Sprintf of the prefix and key. -/
def prefixKey (key : Str) : Str := CacheStorePrefix ++ key

/-- cleanKey (redis.go lines 262-264): strings.TrimPrefix of the prefix. -/
def cleanKey (key : Str) : Str :=
  if CacheStorePrefix.isPrefixOf key then key.drop ( CacheStorePrefix.length) else key

/-- The redis pubsub message struct (redis.go lines 34-38): key, packed
message bytes, client identifier. -/
structure redisMessage where
  K : Str
  M : Bytes
  C : List Nat
deriving DecidableEq

/-- model.ResponseType values relevant here; convertMessage always uses
ResponseTypeCACHED. -/
inductive ResponseType where
  | RESOLVED
  | CACHED
  | BLOCKED
deriving DecidableEq

namespace Model

/-- model.Response: response type marker, reason tag, decoded message. -/
structure Response where
  RType : ResponseType
  Reason : Str
  Res : DnsMsg
deriving DecidableEq

end Model

/-- CacheMessage (redis.go lines 41-44): the record handed to the consumer. -/
structure CacheMessage where
  Key : Str
  Response : Model.Response
deriving DecidableEq

/-- sendBuffer message (redis.go lines 29-32). -/
structure bufferMessage where
  Key : Str
  Message : DnsMsg
deriving DecidableEq

/-- uint32(ttl.Seconds()) as applied to the nonnegative durations the code
guards with ttl > 0: whole seconds by truncating division, reduced mod 2^32
by the uint32 conversion. -/
def uint32OfSeconds (ttl : Int) : Nat := (ttl / 1000000000).toNat % 4294967296

/-- convertMessage (redis.go lines 216-239): unpack the payload; on success,
when the given remaining TTL is positive overwrite every answer record TTL
with uint32(ttl.Seconds()); wrap in a CACHED / EXTERNAL_CACHE response. -/
def convertMessage (message : redisMessage) (ttl : Int) : Option CacheMessage :=
  match Unpack message.M with
  | none => none
  | some d =>
    let res := if 0 < ttl then
        { d with answer := d.answer.map (fun a => { a with ttl := uint32OfSeconds ttl }) }
      else d
    some { Key := message.K
           Response := { RType := .CACHED, Reason := cacheReason, Res := res } }

/-- getTTL (redis.go lines 242-254): running maximum of the answer record
TTLs, defaulting to defaultCacheTime when the maximum is zero, otherwise
time.Duration(ttl) * time.Second. -/
def getTTL (d : DnsMsg) : Int :=
  let ttl : Nat := d.answer.foldl (fun (t : Nat) a => if a.ttl > t then a.ttl else t) 0
  if ttl = 0 then defaultCacheTime else (ttl : Int) * 1000000000

/-- PublishCache (redis.go lines 102-109): guard len(key) > 0 and message
non-nil, then append to the send buffer; otherwise do nothing.  The function
touches nothing but the send buffer. -/
def PublishCache (key : Str) (message : Option DnsMsg)
    (sendBuffer : List bufferMessage) : List bufferMessage :=
  match message with
  | some m => if 0 < key.length then sendBuffer ++ [⟨key, m⟩] else sendBuffer
  | none => sendBuffer

/-- What arrives as the payload of a pubsub message: empty, undecodable
garbage, or a marshalled envelope. -/
inductive RPayload where
  | empty
  | garbage (n : Nat)
  | env (rm : redisMessage)
deriving DecidableEq

/-- json.Marshal of the redisMessage struct: a faithful self-describing
envelope (marshalling of this struct cannot fail). -/
def jsonMarshal (rm : redisMessage) : RPayload := .env rm

/-- json.Unmarshal into a redisMessage: inverse of jsonMarshal, failing on
anything that is not a marshalled envelope. -/
def jsonUnmarshal : RPayload → Option redisMessage
  | .env rm => some rm
  | _ => none

/-- The guard len(msg.Payload) > 0 on a received pubsub message (a nil
message is subsumed under the empty payload). -/
def payloadNonempty : RPayload → Bool
  | .empty => false
  | _ => true

/-- One observable action of the coordinating loop: a PUBLISH call, a SET
call, a record forwarded on the CacheChannel, or an error log line. -/
inductive Effect where
  | publishCall (channel : Str) (payload : RPayload)
  | setCall (key : Str) (value : Bytes) (ttl : Int)
  | forward (cm : CacheMessage)
  | logErr
deriving DecidableEq

/-- One readiness event of the select loop: an inbound subscription message
or an outbound buffered publish request. -/
inductive LoopEvent where
  | recv (payload : RPayload)
  | send (s : bufferMessage)
deriving DecidableEq

/-- The envelope built in the outbound branch (redis.go lines 162-172):
key, packed bytes of the message with Compress set, local client id. -/
def outboundEnvelope (id : List Nat) (s : bufferMessage) : redisMessage :=
  { K := s.Key, M := Pack { s.Message with compress := true }, C := id }

/-- One iteration of the select loop in startup (redis.go lines 134-181).
Inbound branch: skip empty payloads; log an unmarshal failure; drop the
message when bytes.Compare of its client id with the local id is 0;
otherwise convert with ttl 0 and forward on success (an unpack failure is
dropped without a log line).  Outbound branch: set Compress on the buffered
message, pack it once, PUBLISH the marshalled envelope, then SET the packed
bytes under the prefixed key with getTTL of the message.  The parameters
setRes and pubRes are the outcomes the broker returns for the SET and
PUBLISH calls of this iteration; the source discards both return values
(lines 170-177), so no part of the trace can depend on them. -/
def loopStep (setRes pubRes : Option Nat) (id : List Nat) : LoopEvent → List Effect
  | .recv p =>
    if payloadNonempty p then
      match jsonUnmarshal p with
      | some rm =>
        if rm.C ≠ id then
          match convertMessage rm 0 with
          | some cm => [.forward cm]
          | none => []
        else []
      | none => [.logErr]
    else []
  | .send s =>
    [ .publishCall CacheChannelName (jsonMarshal (outboundEnvelope id s)),
      .setCall (prefixKey s.Key) (Pack { s.Message with compress := true })
        (getTTL { s.Message with compress := true }) ]

/-- The loop processing a finite sequence of readiness events in order, one
at a time, accumulating the observable trace. -/
def processEvents (setRes pubRes : Option Nat) (id : List Nat) : List LoopEvent → List Effect
  | [] => []
  | ev :: rest => loopStep setRes pubRes id ev ++ processEvents setRes pubRes id rest

/-- A persisted entry of the redis store: full (prefixed) key, stored bytes,
remaining TTL in seconds as the TTL command reports it. -/
structure StoreEntry where
  key : Str
  value : Bytes
  ttlSec : Int
deriving DecidableEq

/-- Redis GET: an entry whose remaining TTL is not positive has expired and
behaves as absent (lazy deletion), so the read errors (redis.Nil). -/
def storeGet (store : List StoreEntry) (key : Str) : Option Bytes :=
  match store.find? (fun e => e.key = key) with
  | some e => if 0 < e.ttlSec then some e.value else none
  | none => none

/-- Redis TTL for a live key, as a duration in whole seconds; errors on an
expired or absent key just as GET does. -/
def storeTTL (store : List StoreEntry) (key : Str) : Option Int :=
  match store.find? (fun e => e.key = key) with
  | some e => if 0 < e.ttlSec then some e.ttlSec else none
  | none => none

/-- getResponse (redis.go lines 191-213): GET the value, then TTL, then
convertMessage on the cleaned key with the remaining TTL as a duration
(seconds times 10^9 nanoseconds); any failure yields no record. -/
def getResponse (store : List StoreEntry) (key : Str) : Option CacheMessage :=
  match storeGet store key with
  | none => none
  | some v =>
    match storeTTL store key with
    | none => none
    | some ttlSec => convertMessage { K := cleanKey key, M := v, C := [] } (ttlSec * 1000000000)

/-- The SCAN over prefixKey of the wildcard (redis.go line 115): every
stored key matching the cache namespace, in store order. -/
def scanKeys (store : List StoreEntry) : List Str :=
  (store.map (fun e => e.key)).filter (fun k => CacheStorePrefix.isPrefixOf k)

/-- GetRedisCache (redis.go lines 112-127): iterate the scanned keys; a key
whose getResponse fails is logged and skipped, a successful one is forwarded
to the CacheChannel.  The produced records in order. -/
def GetRedisCache (store : List StoreEntry) : List CacheMessage :=
  (scanKeys store).filterMap (getResponse store)

/-- Go heap of dns.Msg objects: addresses are list indices.  PublishCache
enqueues the pointer the caller passed; the outbound branch (redis.go lines
162-163) writes origRes.Compress = true through that pointer, mutating the
caller object in place. -/
def sendBranchMessageUpdate (heap : List DnsMsg) (ptr : Nat) : List DnsMsg :=
  match heap[ptr]? with
  | some m => heap.set ptr { m with compress := true }
  | none => heap

/-- C1: a successfully decoded inbound broadcast whose embedded origin
identifier equals the local instance id produces no effect at all in the
inbound branch — in particular no record is forwarded to the consumer-facing
channel, whatever the key or payload content and whatever the broker would
answer in this iteration. -/
theorem inbound_self_origin_dropped (setRes pubRes : Option Nat) (id : List Nat)
    (rm : redisMessage) (h : rm.C = id) :
    loopStep setRes pubRes id (.recv (.env rm)) = [] := by
  simp [loopStep, payloadNonempty, jsonUnmarshal, h]

/-- Witness for C1 at a concrete self-originated envelope. -/
theorem inbound_self_origin_dropped_witness :
    loopStep none none [1] (.recv (.env ⟨['k'], Bytes.corrupt 0, [1]⟩)) = [] :=
  inbound_self_origin_dropped none none [1] ⟨['k'], Bytes.corrupt 0, [1]⟩ rfl

/-- C6: stripping the namespace prefix from a prefixed key recovers the
original key, for every key including the empty one and keys that already
contain the prefix literal. -/
theorem cleanKey_prefixKey (k : Str) : cleanKey (prefixKey k) = k := by
  unfold cleanKey prefixKey
  rw [if_pos (List.isPrefixOf_iff_prefix.mpr (List.prefix_append _ k))]
  exact List.drop_left _ k

/-- C7: PublishCache called with an empty key or a nil message leaves the
send buffer exactly as it was, and consequently the loop, whose broker calls
all stem from buffered events, produces the identical effect trace — no
store write and no broadcast arise from the call. -/
theorem publishCache_invalid_ignored (key : Str) (message : Option DnsMsg)
    (buf : List bufferMessage) (setRes pubRes : Option Nat) (id : List Nat)
    (h : key = [] ∨ message = none) :
    PublishCache key message buf = buf ∧
      processEvents setRes pubRes id ((PublishCache key message buf).map LoopEvent.send) =
        processEvents setRes pubRes id (buf.map LoopEvent.send) := by
  have hb : PublishCache key message buf = buf := by
    rcases h with h | h
    · cases message with
      | none => rfl
      | some m => simp [PublishCache, h]
    · simp [PublishCache, h]
  exact ⟨hb, by rw [hb]⟩

/-- Witness for C7 at an empty key and a concrete message and buffer. -/
theorem publishCache_invalid_ignored_witness :
    PublishCache [] (some ⟨0, false, [], [], [], []⟩) [⟨['a'], ⟨1, true, [], [], [], []⟩⟩] =
        [⟨['a'], ⟨1, true, [], [], [], []⟩⟩] ∧
      processEvents none none [] ((PublishCache [] (some ⟨0, false, [], [], [], []⟩)
          [⟨['a'], ⟨1, true, [], [], [], []⟩⟩]).map LoopEvent.send) =
        processEvents none none [] ([⟨['a'], ⟨1, true, [], [], [], []⟩⟩].map LoopEvent.send) :=
  publishCache_invalid_ignored [] (some ⟨0, false, [], [], [], []⟩)
    [⟨['a'], ⟨1, true, [], [], [], []⟩⟩] none none [] (Or.inl rfl)

/-- C10: the outbound branch mutates the caller message in place: at the
very address the caller passed to PublishCache, the Compress field becomes
true while every other field keeps its value, and every other heap address
is untouched (frame condition). -/
theorem send_branch_mutates_in_place (heap : List DnsMsg) (ptr : Nat) (m : DnsMsg)
    (h : heap[ptr]? = some m) :
    (sendBranchMessageUpdate heap ptr)[ptr]? = some { m with compress := true } ∧
      ({ m with compress := true }).compress = true ∧
      ({ m with compress := true }).id = m.id ∧
      ({ m with compress := true }).question = m.question ∧
      ({ m with compress := true }).answer = m.answer ∧
      ({ m with compress := true }).ns = m.ns ∧
      ({ m with compress := true }).extra = m.extra ∧
      ∀ q, q ≠ ptr → (sendBranchMessageUpdate heap ptr)[q]? = heap[q]? := by
  have hlen : ptr < heap.length := (List.getElem?_eq_some.mp h).1
  refine ⟨?_, rfl, rfl, rfl, rfl, rfl, rfl, ?_⟩
  · simp only [sendBranchMessageUpdate, h]
    exact List.getElem?_set_eq_of_lt _ hlen
  · intro q hq
    simp only [sendBranchMessageUpdate, h]
    exact List.getElem?_set_ne (fun hh => hq hh.symm)

/-- Witness for C10 on a one-cell heap. -/
theorem send_branch_mutates_in_place_witness :
    (sendBranchMessageUpdate [⟨7, false, [], [], [], []⟩] 0)[0]? =
        some { (⟨7, false, [], [], [], []⟩ : DnsMsg) with compress := true } ∧
      ({ (⟨7, false, [], [], [], []⟩ : DnsMsg) with compress := true }).compress = true ∧
      ({ (⟨7, false, [], [], [], []⟩ : DnsMsg) with compress := true }).id =
        (⟨7, false, [], [], [], []⟩ : DnsMsg).id ∧
      ({ (⟨7, false, [], [], [], []⟩ : DnsMsg) with compress := true }).question =
        (⟨7, false, [], [], [], []⟩ : DnsMsg).question ∧
      ({ (⟨7, false, [], [], [], []⟩ : DnsMsg) with compress := true }).answer =
        (⟨7, false, [], [], [], []⟩ : DnsMsg).answer ∧
      ({ (⟨7, false, [], [], [], []⟩ : DnsMsg) with compress := true }).ns =
        (⟨7, false, [], [], [], []⟩ : DnsMsg).ns ∧
      ({ (⟨7, false, [], [], [], []⟩ : DnsMsg) with compress := true }).extra =
        (⟨7, false, [], [], [], []⟩ : DnsMsg).extra ∧
      ∀ q, q ≠ 0 →
        (sendBranchMessageUpdate [⟨7, false, [], [], [], []⟩] 0)[q]? =
          ([⟨7, false, [], [], [], []⟩] : List DnsMsg)[q]? :=
  send_branch_mutates_in_place [⟨7, false, [], [], [], []⟩] 0 ⟨7, false, [], [], [], []⟩ rfl

/-- The running-maximum fold is at least its starting accumulator. -/
lemma ttlFold_ge_acc (l : List RR) : ∀ acc : Nat,
    acc ≤ l.foldl (fun t a => if a.ttl > t then a.ttl else t) acc := by
  induction l with
  | nil => intro acc; exact Nat.le_refl _
  | cons a l ih =>
    intro acc
    refine Nat.le_trans ?_ (ih (if a.ttl > acc then a.ttl else acc))
    by_cases h : a.ttl > acc
    · simp [h]; omega
    · simp [h]

/-- The running-maximum fold dominates the ttl of every record of the list. -/
lemma ttlFold_ge_mem (l : List RR) : ∀ acc : Nat, ∀ r ∈ l,
    r.ttl ≤ l.foldl (fun t a => if a.ttl > t then a.ttl else t) acc := by
  induction l with
  | nil => intro acc r hr; cases hr
  | cons a l ih =>
    intro acc r hr
    rcases List.mem_cons.mp hr with h | h
    · subst h
      refine Nat.le_trans ?_ (ttlFold_ge_acc l (if r.ttl > acc then r.ttl else acc))
      by_cases hc : r.ttl > acc
      · simp [hc]
      · simp [hc]; omega
    · exact ih _ r h

/-- The running-maximum fold returns either its starting accumulator or the
ttl of some record of the list. -/
lemma ttlFold_attained (l : List RR) : ∀ acc : Nat,
    l.foldl (fun t a => if a.ttl > t then a.ttl else t) acc = acc ∨
      ∃ r ∈ l, l.foldl (fun t a => if a.ttl > t then a.ttl else t) acc = r.ttl := by
  induction l with
  | nil => intro acc; exact Or.inl rfl
  | cons a l ih =>
    intro acc
    rcases ih (if a.ttl > acc then a.ttl else acc) with h | ⟨r, hr, h⟩
    · by_cases hc : a.ttl > acc
      · refine Or.inr ⟨a, List.mem_cons_self a l, ?_⟩
        simpa [List.foldl_cons, hc] using h
      · refine Or.inl ?_
        simpa [List.foldl_cons, hc] using h
    · exact Or.inr ⟨r, List.mem_cons_of_mem a hr, by simpa [List.foldl_cons] using h⟩

/-- C4: when some answer record carries a positive TTL, getTTL returns the
maximum record TTL as a duration in seconds (there is a record attaining the
returned value and dominating all others); when every record TTL is zero —
in particular when the answer is empty — getTTL returns the fixed
one-second default. -/
theorem getTTL_spec (d : DnsMsg) :
    ((∃ r ∈ d.answer, 0 < r.ttl) →
      ∃ r ∈ d.answer, getTTL d = (r.ttl : Int) * 1000000000 ∧
        ∀ r2 ∈ d.answer, r2.ttl ≤ r.ttl) ∧
    ((∀ r ∈ d.answer, r.ttl = 0) → getTTL d = defaultCacheTime) := by
  constructor
  · rintro ⟨r0, hr0, hpos⟩
    have hge := ttlFold_ge_mem d.answer 0 r0 hr0
    have hne : d.answer.foldl (fun t a => if a.ttl > t then a.ttl else t) 0 ≠ 0 := by omega
    rcases ttlFold_attained d.answer 0 with h | ⟨r, hr, h⟩
    · exact absurd h hne
    · refine ⟨r, hr, ?_, ?_⟩
      · unfold getTTL
        rw [if_neg (h ▸ hne), h]
      · intro r2 hr2
        have := ttlFold_ge_mem d.answer 0 r2 hr2
        omega
  · intro hz
    unfold getTTL
    rcases ttlFold_attained d.answer 0 with h | ⟨r, hr, h⟩
    · rw [if_pos h]
    · rw [if_pos (by rw [h]; exact hz r hr)]

/-- Witness for C4: a two-record answer with TTLs 300 and 7, and separately
an all-zero answer hitting the default. -/
theorem getTTL_spec_witness :
    (∃ r ∈ [(⟨[], 300, []⟩ : RR), ⟨[], 7, []⟩],
      getTTL ⟨0, false, [], [⟨[], 300, []⟩, ⟨[], 7, []⟩], [], []⟩ = (r.ttl : Int) * 1000000000 ∧
        ∀ r2 ∈ [(⟨[], 300, []⟩ : RR), ⟨[], 7, []⟩], r2.ttl ≤ r.ttl) ∧
    getTTL ⟨0, false, [], [⟨[], 0, []⟩], [], []⟩ = defaultCacheTime :=
  ⟨(getTTL_spec ⟨0, false, [], [⟨[], 300, []⟩, ⟨[], 7, []⟩], [], []⟩).1
      ⟨⟨[], 300, []⟩, by decide, by decide⟩,
    (getTTL_spec ⟨0, false, [], [⟨[], 0, []⟩], [], []⟩).2 (by decide)⟩

/-- C5 counterexample: a remaining TTL of half a second (5 * 10^8
nanoseconds) is positive, yet the restamp writes 0 into the record TTL
field — the record had TTL 300 and now carries a value that is not the
remaining TTL under any unit: the claim that a positive remaining TTL is
written exactly is false at this input. -/
theorem convertMessage_restamp_counterexample :
    (0 : Int) < 5 * 100000000 ∧
      (convertMessage ⟨['k'], Pack ⟨0, false, [], [⟨[], 300, []⟩], [], []⟩, []⟩
          (5 * 100000000)).map (fun cm => cm.Response.Res.answer.map RR.ttl) = some [0] ∧
      ¬ ((0 : Int) * 1000000000 = 5 * 100000000) := by
  refine ⟨by norm_num, ?_, by norm_num⟩
  decide

/-- C5 as amended: on a successfully decoded payload, a positive remaining
TTL makes every answer record TTL equal to the remaining TTL truncated to
whole seconds and reduced mod 2^32 (exactly the remaining value whenever
that TTL is a whole number of seconds below 2^32), while a zero or negative
remaining TTL leaves the decoded answer records untouched. -/
theorem convertMessage_restamp (rm : redisMessage) (ttl : Int) (cm : CacheMessage)
    (h : convertMessage rm ttl = some cm) :
    (0 < ttl → ∀ r ∈ cm.Response.Res.answer, r.ttl = uint32OfSeconds ttl) ∧
      (ttl ≤ 0 → ∀ d, Unpack rm.M = some d → cm.Response.Res.answer = d.answer) := by
  constructor
  · intro hpos r hr
    cases hu : Unpack rm.M with
    | none => simp [convertMessage, hu] at h
    | some d =>
      simp only [convertMessage, hu, if_pos hpos] at h
      cases h
      simp only at hr
      rcases List.mem_map.mp hr with ⟨a, _, ha⟩
      rw [← ha]
  · intro hneg d hu
    simp only [convertMessage, hu, if_neg (by omega : ¬ 0 < ttl)] at h
    cases h
    rfl

/-- Witness for C5 as amended: a 90-second remaining TTL restamps the record
to 90, and a zero TTL leaves the original 300 in place. -/
theorem convertMessage_restamp_witness :
    (∀ r ∈ (⟨['k'], ⟨.CACHED, cacheReason,
        ⟨0, false, [], [⟨[], 90, []⟩], [], []⟩⟩⟩ : CacheMessage).Response.Res.answer,
      r.ttl = uint32OfSeconds (90 * 1000000000)) ∧
    ∀ d, Unpack (Pack ⟨0, false, [], [⟨[], 300, []⟩], [], []⟩) = some d →
      (⟨['k'], ⟨.CACHED, cacheReason,
        ⟨0, false, [], [⟨[], 300, []⟩], [], []⟩⟩⟩ : CacheMessage).Response.Res.answer = d.answer :=
  ⟨(convertMessage_restamp ⟨['k'], Pack ⟨0, false, [], [⟨[], 300, []⟩], [], []⟩, []⟩
        (90 * 1000000000) _ (by decide)).1 (by norm_num),
    (convertMessage_restamp ⟨['k'], Pack ⟨0, false, [], [⟨[], 300, []⟩], [], []⟩, []⟩
        0 _ (by decide)).2 (by norm_num)⟩

/-- C2: for every published pair of a non-empty key and a message, decoding
the wire envelope the outbound branch produces — unmarshal the marshalled
envelope, then convert with ttl 0 as the inbound branch does — succeeds and
yields back the same key and exactly the original answer records. -/
theorem publish_roundtrip (id : List Nat) (key : Str) (m : DnsMsg) (h : key ≠ []) :
    ((jsonUnmarshal (jsonMarshal (outboundEnvelope id ⟨key, m⟩))).bind
        (fun rm => convertMessage rm 0)).map CacheMessage.Key = some key ∧
      ((jsonUnmarshal (jsonMarshal (outboundEnvelope id ⟨key, m⟩))).bind
        (fun rm => convertMessage rm 0)).map (fun cm => cm.Response.Res.answer) =
        some m.answer := by
  constructor <;>
    simp [jsonMarshal, jsonUnmarshal, outboundEnvelope, convertMessage, Pack, Unpack, canonMsg]

/-- Witness for C2 at a concrete key and answer. -/
theorem publish_roundtrip_witness :
    ((jsonUnmarshal (jsonMarshal (outboundEnvelope [9]
        ⟨['k'], ⟨3, false, [], [⟨['a'], 300, ['x']⟩], [], []⟩⟩))).bind
          (fun rm => convertMessage rm 0)).map CacheMessage.Key = some ['k'] ∧
      ((jsonUnmarshal (jsonMarshal (outboundEnvelope [9]
        ⟨['k'], ⟨3, false, [], [⟨['a'], 300, ['x']⟩], [], []⟩⟩))).bind
          (fun rm => convertMessage rm 0)).map (fun cm => cm.Response.Res.answer) =
        some [⟨['a'], 300, ['x']⟩] :=
  publish_roundtrip [9] ['k'] ⟨3, false, [], [⟨['a'], 300, ['x']⟩], [], []⟩ (by decide)

/-- C8 counterexample: with the broker reporting a failure for both the SET
and the PUBLISH of an outbound publish (outcomes some 1), the iteration
emits no log line at all — the claim that either failure is logged is false
at this input. -/
theorem outbound_failure_not_logged :
    Effect.logErr ∉ loopStep (some 1) (some 1) [0]
      (.send ⟨['k'], ⟨0, false, [], [⟨[], 300, []⟩], [], []⟩⟩) := by
  decide

/-- C8 as amended: in the outbound branch the store write and the broadcast
are independent — both calls appear in the trace whatever outcome the broker
returns for either of them (the source discards both results), no failure is
rolled back, no failure is logged or escalated, and the loop goes on to
process the remaining events unchanged, so one failed publish neither
crashes the loop nor blocks later publishes. -/
theorem outbound_effects_independent (setRes pubRes : Option Nat) (id : List Nat)
    (s : bufferMessage) (rest : List LoopEvent) :
    Effect.publishCall CacheChannelName (jsonMarshal (outboundEnvelope id s)) ∈
        loopStep setRes pubRes id (.send s) ∧
      Effect.setCall (prefixKey s.Key) (Pack { s.Message with compress := true })
          (getTTL { s.Message with compress := true }) ∈
        loopStep setRes pubRes id (.send s) ∧
      Effect.logErr ∉ loopStep setRes pubRes id (.send s) ∧
      loopStep setRes pubRes id (.send s) = loopStep none none id (.send s) ∧
      processEvents setRes pubRes id (.send s :: rest) =
        loopStep setRes pubRes id (.send s) ++ processEvents setRes pubRes id rest := by
  refine ⟨List.mem_cons_self _ _, ?_, ?_, rfl, rfl⟩
  · exact List.mem_cons_of_mem _ (List.mem_cons_self _ _)
  · intro hmem
    simp [loopStep] at hmem

/-- C9 counterexample: the same stored answer reaching the consumer once via
a peer broadcast and once via the bulk load produces the very same record,
whose reason tag is the fixed EXTERNAL_CACHE in both cases and is neither a
peer-broadcast nor a bulk-load marker — the two origins are not
distinguishable from the record, so the claimed provenance tagging is false. -/
theorem provenance_indistinguishable_counterexample :
    loopStep none none [1]
        (.recv (.env ⟨['k'], Pack ⟨0, false, [], [⟨[], 50, []⟩], [], []⟩, [2]⟩)) =
      [Effect.forward ⟨['k'],
        ⟨.CACHED, cacheReason, ⟨0, false, [], [⟨[], 50, []⟩], [], []⟩⟩⟩] ∧
    getResponse [⟨prefixKey ['k'], Pack ⟨0, false, [], [⟨[], 50, []⟩], [], []⟩, 50⟩]
        (prefixKey ['k']) =
      some ⟨['k'], ⟨.CACHED, cacheReason, ⟨0, false, [], [⟨[], 50, []⟩], [], []⟩⟩⟩ ∧
    cacheReason ≠ "peer broadcast".toList ∧
    cacheReason ≠ "bulk load".toList := by
  refine ⟨by decide, ?_, by decide, by decide⟩
  decide

/-- C9 as amended: every record the inbound branch forwards and every record
the bulk loader produces carries the same fixed marking — response type
CACHED and reason EXTERNAL_CACHE; no field distinguishes the two origins. -/
theorem forwarded_records_same_fixed_tag (setRes pubRes : Option Nat) (id : List Nat)
    (p : RPayload) (store : List StoreEntry) (k : Str) (cm cm2 : CacheMessage) :
    (Effect.forward cm ∈ loopStep setRes pubRes id (.recv p) →
      cm.Response.RType = .CACHED ∧ cm.Response.Reason = cacheReason) ∧
    (getResponse store k = some cm2 →
      cm2.Response.RType = .CACHED ∧ cm2.Response.Reason = cacheReason) := by
  constructor
  · intro hmem
    cases p with
    | empty => simp [loopStep, payloadNonempty] at hmem
    | garbage n => simp [loopStep, payloadNonempty, jsonUnmarshal] at hmem
    | env rm =>
      simp only [loopStep, payloadNonempty, jsonUnmarshal, if_true] at hmem
      by_cases hc : rm.C ≠ id
      · rw [if_pos hc] at hmem
        cases hcv : convertMessage rm 0 with
        | none => rw [hcv] at hmem; simp at hmem
        | some cm3 =>
          rw [hcv] at hmem
          have hcm : cm = cm3 := by simpa using hmem
          subst hcm
          cases hu : Unpack rm.M with
          | none => simp [convertMessage, hu] at hcv
          | some d =>
            simp only [convertMessage, hu] at hcv
            cases hcv
            exact ⟨rfl, rfl⟩
      · rw [if_neg hc] at hmem; simp at hmem
  · intro hget
    unfold getResponse at hget
    cases hg : storeGet store k with
    | none => rw [hg] at hget; simp at hget
    | some v =>
      rw [hg] at hget
      cases ht : storeTTL store k with
      | none => rw [ht] at hget; simp at hget
      | some ttlSec =>
        rw [ht] at hget
        cases hu : Unpack v with
        | none => simp [convertMessage, hu] at hget
        | some d =>
          simp only [convertMessage, hu] at hget
          cases hget
          exact ⟨rfl, rfl⟩

/-- Witness for C9 as amended, at a concrete broadcast and a concrete store. -/
theorem forwarded_records_same_fixed_tag_witness :
    ((⟨['k'], ⟨.CACHED, cacheReason,
        ⟨0, false, [], [⟨[], 50, []⟩], [], []⟩⟩⟩ : CacheMessage).Response.RType = .CACHED ∧
      (⟨['k'], ⟨.CACHED, cacheReason,
        ⟨0, false, [], [⟨[], 50, []⟩], [], []⟩⟩⟩ : CacheMessage).Response.Reason = cacheReason) ∧
    ((⟨['k'], ⟨.CACHED, cacheReason,
        ⟨0, false, [], [⟨[], 50, []⟩], [], []⟩⟩⟩ : CacheMessage).Response.RType = .CACHED ∧
      (⟨['k'], ⟨.CACHED, cacheReason,
        ⟨0, false, [], [⟨[], 50, []⟩], [], []⟩⟩⟩ : CacheMessage).Response.Reason = cacheReason) :=
  ⟨(forwarded_records_same_fixed_tag none none [1]
        (.env ⟨['k'], Pack ⟨0, false, [], [⟨[], 50, []⟩], [], []⟩, [2]⟩)
        [⟨prefixKey ['k'], Pack ⟨0, false, [], [⟨[], 50, []⟩], [], []⟩, 50⟩] (prefixKey ['k'])
        ⟨['k'], ⟨.CACHED, cacheReason, ⟨0, false, [], [⟨[], 50, []⟩], [], []⟩⟩⟩
        ⟨['k'], ⟨.CACHED, cacheReason, ⟨0, false, [], [⟨[], 50, []⟩], [], []⟩⟩⟩).1 (by decide),
    (forwarded_records_same_fixed_tag none none [1]
        (.env ⟨['k'], Pack ⟨0, false, [], [⟨[], 50, []⟩], [], []⟩, [2]⟩)
        [⟨prefixKey ['k'], Pack ⟨0, false, [], [⟨[], 50, []⟩], [], []⟩, 50⟩] (prefixKey ['k'])
        ⟨['k'], ⟨.CACHED, cacheReason, ⟨0, false, [], [⟨[], 50, []⟩], [], []⟩⟩⟩
        ⟨['k'], ⟨.CACHED, cacheReason, ⟨0, false, [], [⟨[], 50, []⟩], [], []⟩⟩⟩).2 (by decide)⟩

/-- A store entry whose key differs from the looked-up key plays no part in
getResponse (redis keys are unique, so lookups skip unrelated entries). -/
lemma getResponse_cons_ne (e : StoreEntry) (rest : List StoreEntry) (k : Str)
    (h : ¬ e.key = k) : getResponse (e :: rest) k = getResponse rest k := by
  unfold getResponse storeGet storeTTL
  rw [List.find?_cons_of_neg _ (by simpa using h)]

/-- getResponse on the key of the head entry: a record exactly when the
remaining TTL is positive and the payload converts. -/
lemma getResponse_cons_self (e : StoreEntry) (rest : List StoreEntry) :
    getResponse (e :: rest) e.key =
      if 0 < e.ttlSec then
        convertMessage ⟨cleanKey e.key, e.value, []⟩ (e.ttlSec * 1000000000)
      else none := by
  unfold getResponse storeGet storeTTL
  rw [List.find?_cons_of_pos _ (by simp)]
  by_cases ht : 0 < e.ttlSec
  · simp [ht]
  · simp [ht]

/-- C3: over a store with unique keys, the bulk load produces exactly the
records of the namespaced entries whose remaining TTL is positive and whose
payload decodes, each obtained locally from its own entry — so a failing
entry (expired, corrupt, or foreign) contributes nothing and leaves the
scan over every other entry untouched. -/
theorem getRedisCache_spec (store : List StoreEntry)
    (h : (store.map (fun e => e.key)).Nodup) :
    GetRedisCache store = store.filterMap (fun e =>
      if CacheStorePrefix.isPrefixOf e.key ∧ 0 < e.ttlSec then
        convertMessage ⟨cleanKey e.key, e.value, []⟩ (e.ttlSec * 1000000000)
      else none) := by
  induction store with
  | nil => rfl
  | cons e rest ih =>
    have hsimp : (∀ x ∈ rest, ¬ x.key = e.key) ∧ (rest.map (fun e => e.key)).Nodup := by
      simpa using h
    have ihr := ih hsimp.2
    have hcongr : ((rest.map (fun x => x.key)).filter
          (fun k => CacheStorePrefix.isPrefixOf k)).filterMap (getResponse (e :: rest)) =
        GetRedisCache rest := by
      unfold GetRedisCache scanKeys
      refine List.filterMap_congr (fun k hk => getResponse_cons_ne e rest k (fun hh => ?_))
      rcases List.mem_map.mp (List.mem_of_mem_filter hk) with ⟨x, hx, hxk⟩
      exact hsimp.1 x hx (hxk.trans hh.symm)
    unfold GetRedisCache scanKeys
    rw [List.map_cons, List.filter_cons, List.filterMap_cons]
    by_cases hp : CacheStorePrefix.isPrefixOf e.key
    · rw [if_pos hp, List.filterMap_cons, getResponse_cons_self, hcongr, ihr]
      by_cases ht : 0 < e.ttlSec
      · rw [if_pos ht, if_pos ⟨hp, ht⟩]
      · rw [if_neg ht, if_neg (fun hc => ht hc.2)]
    · rw [if_neg hp, if_neg (fun hc => hp hc.1), hcongr, ihr]

/-- Witness for C3 on the scenario store: a live entry (TTL 10), an expired
one (TTL 0), a corrupt payload under a valid key (TTL 50), a live entry
(TTL 50) and a foreign key outside the namespace. -/
theorem getRedisCache_spec_witness :
    (([⟨prefixKey ['a'], Pack ⟨0, false, [], [⟨[], 10, []⟩], [], []⟩, 10⟩,
        ⟨prefixKey ['b'], Pack ⟨0, false, [], [⟨[], 99, []⟩], [], []⟩, 0⟩,
        ⟨prefixKey ['c'], Bytes.corrupt 7, 50⟩,
        ⟨prefixKey ['d'], Pack ⟨0, false, [], [⟨[], 50, []⟩], [], []⟩, 50⟩,
        ⟨['z'], Pack ⟨0, false, [], [], [], []⟩, 5⟩] : List StoreEntry).map
          (fun e => e.key)).Nodup ∧
      GetRedisCache
          [⟨prefixKey ['a'], Pack ⟨0, false, [], [⟨[], 10, []⟩], [], []⟩, 10⟩,
            ⟨prefixKey ['b'], Pack ⟨0, false, [], [⟨[], 99, []⟩], [], []⟩, 0⟩,
            ⟨prefixKey ['c'], Bytes.corrupt 7, 50⟩,
            ⟨prefixKey ['d'], Pack ⟨0, false, [], [⟨[], 50, []⟩], [], []⟩, 50⟩,
            ⟨['z'], Pack ⟨0, false, [], [], [], []⟩, 5⟩] =
        ([⟨prefixKey ['a'], Pack ⟨0, false, [], [⟨[], 10, []⟩], [], []⟩, 10⟩,
            ⟨prefixKey ['b'], Pack ⟨0, false, [], [⟨[], 99, []⟩], [], []⟩, 0⟩,
            ⟨prefixKey ['c'], Bytes.corrupt 7, 50⟩,
            ⟨prefixKey ['d'], Pack ⟨0, false, [], [⟨[], 50, []⟩], [], []⟩, 50⟩,
            ⟨['z'], Pack ⟨0, false, [], [], [], []⟩, 5⟩] : List StoreEntry).filterMap
          (fun e =>
            if CacheStorePrefix.isPrefixOf e.key ∧ 0 < e.ttlSec then
              convertMessage ⟨cleanKey e.key, e.value, []⟩ (e.ttlSec * 1000000000)
            else none) :=
  ⟨by decide,
    getRedisCache_spec
      [⟨prefixKey ['a'], Pack ⟨0, false, [], [⟨[], 10, []⟩], [], []⟩, 10⟩,
        ⟨prefixKey ['b'], Pack ⟨0, false, [], [⟨[], 99, []⟩], [], []⟩, 0⟩,
        ⟨prefixKey ['c'], Bytes.corrupt 7, 50⟩,
        ⟨prefixKey ['d'], Pack ⟨0, false, [], [⟨[], 50, []⟩], [], []⟩, 50⟩,
        ⟨['z'], Pack ⟨0, false, [], [], [], []⟩, 5⟩] (by decide)⟩

end BlockyRedis
